import Mathlib

/-!
Verification of the ADS query client (`src/adsabs_query_full.py`).

The Python client is a single class with three phases: a paginated
year-by-year article search (`query_articles`), a batched enrichment that
fetches reference lists for bibcodes (`get_references_or_citations_batched`),
and a step that attaches the fetched references to every record
(`add_references_to_dataframe`).

The embedding below models the remote HTTP API as an oracle function from
request parameters to a response (status code plus the parsed
`response.docs` list).  The `while True` pagination loop is translated with
an explicit fuel parameter; all theorems about it assume enough fuel for the
loop to reach its exit condition.  Python dictionaries are translated as
association lists with in-place overwrite on duplicate keys, which preserves
both key order and the last-write-wins update semantics.  The pandas step
`df = df[df['doi'].notnull()]` is translated as a fallible operation: when no
accumulated row carries a `doi` key, the DataFrame built by
`pd.DataFrame(all_results)` has no `doi` column and the indexing raises
`KeyError('doi')`; this is modeled as `Except.error "KeyError: doi"`.
(ADS never returns an explicit `null` field value: a field is either present
or absent from a doc, so `doi = none` models an absent key and the `doi`
column exists exactly when some accumulated record has `doi` present.)
-/

set_option autoImplicit false

namespace ADSQuery

/-- One article record, as returned by the search endpoint.  `bibcode` and
`doi` are the two fields the client inspects; every other bibliographic
field is carried verbatim in `fields`.  `none` models an absent key. -/
structure Record where
  bibcode : Option String
  doi : Option String
  fields : List (String × String)
  deriving DecidableEq, Repr

/-- A parsed HTTP response to one search-page request: the status code and
the `response.docs` array (`[]` also covers a missing `docs` key, since the
code reads it with `.get("docs", [])`). -/
structure PageResponse where
  status : Nat
  docs : List Record
  deriving DecidableEq, Repr

/-- The `while True` pagination loop of `query_articles`
(src/adsabs_query_full.py:38-52), for one year, translated with fuel.
`api year start` is the response to the page request at offset `start`.
Returns the documents accumulated for the year together with the list of
offsets actually requested.  The loop breaks on a non-200 status before
looking at the docs, breaks on an empty docs list, and otherwise advances
the offset by the fixed page size `rows = 2000`. -/
def queryYear (api : Nat → Nat → PageResponse) (year : Nat) :
    Nat → Nat → List Record × List Nat
  | 0, _ => ([], [])
  | fuel + 1, start =>
    let r := api year start
    if r.status ≠ 200 then ([], [start])
    else if r.docs = [] then ([], [start])
    else
      let p := queryYear api year fuel (start + 2000)
      (r.docs ++ p.1, start :: p.2)

/-- The `for year in range(start_year, end_year + 1)` loop of
`query_articles`: all documents accumulated across the whole year range
(`all_results` just before line 54). -/
def collectAll (api : Nat → Nat → PageResponse) (fuel startYear endYear : Nat) :
    List Record :=
  ((List.range (endYear + 1 - startYear)).map
    (fun i => (queryYear api (startYear + i) fuel 0).1)).flatten

/-- Whether a record has a non-null `doi` field (`df['doi'].notnull()`). -/
def hasDoi (r : Record) : Bool := r.doi.isSome

/-- `query_articles` (src/adsabs_query_full.py:21-56): accumulate all pages
of all years, then run `df = df[df['doi'].notnull()]`.  When no accumulated
record carries a `doi` key (in particular when nothing was accumulated),
the DataFrame has no `doi` column and pandas raises `KeyError('doi')`,
modeled as `Except.error`. -/
def query_articles (api : Nat → Nat → PageResponse) (fuel startYear endYear : Nat) :
    Except String (List Record) :=
  let all := collectAll api fuel startYear endYear
  if all.any hasDoi then Except.ok (all.filter hasDoi)
  else Except.error "KeyError: doi"

/-- One document of an enrichment response: its `bibcode` and its optional
`reference` field (`none` models a doc without a `reference` key). -/
structure RefDoc where
  bibcode : String
  reference : Option (List String)
  deriving DecidableEq, Repr

/-- A parsed HTTP response to one enrichment batch request. -/
structure BatchResponse where
  status : Nat
  docs : List RefDoc
  deriving DecidableEq, Repr

/-- The `results` dictionary of `get_references_or_citations_batched`,
as an association list in insertion order. -/
abbrev RefMap := List (String × List String)

/-- The key list of the dictionary (insertion order, no duplicates as long
as every update goes through `dinsert`). -/
def mkeys (m : RefMap) : List String := m.map Prod.fst

/-- Dictionary lookup: the value of the first entry whose key matches. -/
def mlookup : RefMap → String → Option (List String)
  | [], _ => none
  | (k, v) :: m, a => if k = a then some v else mlookup m a

/-- Dictionary assignment `results[k] = v`: overwrite in place when the key
is present, append otherwise (Python dict update semantics). -/
def dinsert (m : RefMap) (k : String) (v : List String) : RefMap :=
  if k ∈ mkeys m then m.map (fun p => if p.1 = k then (k, v) else p)
  else m ++ [(k, v)]

/-- The batch list comprehension at src/adsabs_query_full.py:63:
`[bibcodes[i:i + batch_size] for i in range(0, len(bibcodes), batch_size)]`.
For `n > 0`, Python `range(0, L, n)` has `(L + n - 1) / n` elements, the
`j`-th being `j * n`, and `bibcodes[i:i+n]` is drop-then-take. -/
def batchesOf {α : Type} (l : List α) (n : Nat) : List (List α) :=
  (List.range ((l.length + n - 1) / n)).map (fun j => (l.drop (j * n)).take n)

/-- The failed-batch branch (src/adsabs_query_full.py:79-80):
`for b in batch: results[b] = []`. -/
def storeEmpty (res : RefMap) (batch : List String) : RefMap :=
  batch.foldl (fun r b => dinsert r b []) res

/-- The successful-batch branch (src/adsabs_query_full.py:84-85):
`for doc in docs: results[doc["bibcode"]] = doc.get("reference", [])`. -/
def storeDocs (res : RefMap) (docs : List RefDoc) : RefMap :=
  docs.foldl (fun r d => dinsert r d.bibcode (d.reference.getD [])) res

/-- The body of the batch loop for one batch: on a non-200 status every
identifier of the batch is recorded with `[]`; on success every returned
doc is recorded under its own bibcode. -/
def processBatch (res : RefMap) (batch : List String) (resp : BatchResponse) :
    RefMap :=
  if resp.status ≠ 200 then storeEmpty res batch
  else storeDocs res resp.docs

/-- The `for batch_num, batch in enumerate(batches)` loop, carrying the
index of the next batch; `api i` is the response to the `i`-th batch
request (0-based). -/
def enrichGo (api : Nat → BatchResponse) :
    Nat → List (List String) → RefMap → RefMap
  | _, [], res => res
  | i, batch :: rest, res =>
    enrichGo api (i + 1) rest (processBatch res batch (api i))

/-- `get_references_or_citations_batched` (src/adsabs_query_full.py:58-90). -/
def get_references_or_citations_batched (api : Nat → BatchResponse)
    (bibcodes : List String) (batch_size : Nat) : RefMap :=
  enrichGo api 0 (batchesOf bibcodes batch_size) []

/-- Which key a batch write touches: a failed batch writes every identifier
of the batch, a successful batch writes the bibcode of every returned doc. -/
def writesKey (resp : BatchResponse) (batch : List String) (a : String) : Prop :=
  if resp.status = 200 then ∃ d ∈ resp.docs, d.bibcode = a else a ∈ batch

instance (resp : BatchResponse) (batch : List String) (a : String) :
    Decidable (writesKey resp batch a) := by
  unfold writesKey; infer_instance

/-- An output record: the input record's fields plus the appended
`references` column. -/
structure RecordOut where
  bibcode : Option String
  doi : Option String
  fields : List (String × String)
  references : String
  deriving DecidableEq, Repr

/-- The per-record lambda at src/adsabs_query_full.py:99:
`", ".join(refs.get(b, [])) if refs.get(b) else "None"` — a missing key and
an empty list are both falsy in Python, so both give `"None"`. -/
def refString (m : RefMap) (b : String) : String :=
  match mlookup m b with
  | some (r :: rs) => String.intercalate ", " (r :: rs)
  | _ => "None"

/-- One record after `df["references"] = df[bibcode_column].map(...)`:
all original fields are kept and one `references` field is appended.  A
record with a missing bibcode (`NaN`) looks up nothing: `dict.get(nan)` is
`None`, which is falsy, so it gets `"None"`. -/
def attachRecord (m : RefMap) (r : Record) : RecordOut :=
  { bibcode := r.bibcode, doi := r.doi, fields := r.fields,
    references :=
      match r.bibcode with
      | none => "None"
      | some b => refString m b }

/-- `add_references_to_dataframe` (src/adsabs_query_full.py:92-106), up to
the file output: collect the non-null bibcodes
(`df[bibcode_column].dropna().tolist()`), fetch their references in
batches, and append a `references` column to every row. -/
def add_references_to_dataframe (api : Nat → BatchResponse) (df : List Record)
    (batch_size : Nat) : List RecordOut :=
  let bibcodes := df.filterMap (fun r => r.bibcode)
  let m := get_references_or_citations_batched api bibcodes batch_size
  df.map (attachRecord m)

/-! Concrete inputs used by witnesses and counterexamples. -/

/-- A sample article record carrying a DOI. -/
def recA : Record := { bibcode := some "2000A", doi := some "10.1/a", fields := [("title", "ta")] }

/-- A second sample article record carrying a DOI. -/
def recB : Record := { bibcode := some "2001B", doi := some "10.1/b", fields := [("title", "tb")] }

/-- A search API whose every page response is HTTP 200 with zero docs. -/
def apiPagesEmpty : Nat → Nat → PageResponse := fun _ _ => { status := 200, docs := [] }

/-- A search API whose every page request fails with HTTP 500. -/
def apiPagesFail : Nat → Nat → PageResponse := fun _ _ => { status := 500, docs := [] }

/-- A search API returning one page with one doc, then an empty page. -/
def apiOnePage : Nat → Nat → PageResponse :=
  fun _ s => if s = 0 then { status := 200, docs := [recA] } else { status := 200, docs := [] }

/-- A search API for two years: year 2000 delivers one page then fails with
HTTP 500; year 2001 delivers one page then an empty page. -/
def apiYearFail : Nat → Nat → PageResponse :=
  fun y s =>
    if y = 2000 then
      if s = 0 then { status := 200, docs := [recA] } else { status := 500, docs := [] }
    else
      if s = 0 then { status := 200, docs := [recB] } else { status := 200, docs := [] }

/-- An enrichment API whose every batch response is HTTP 200 with zero docs. -/
def apiBatchNoDocs : Nat → BatchResponse := fun _ => { status := 200, docs := [] }

/-- An enrichment API whose first batch succeeds with exactly the docs for
bibcodes A and B (doc B lacking the reference field) and whose later
batches fail with HTTP 500. -/
def apiBatchExact : Nat → BatchResponse :=
  fun i =>
    if i = 0 then
      { status := 200,
        docs := [{ bibcode := "A", reference := some ["r1"] },
                 { bibcode := "B", reference := none }] }
    else { status := 500, docs := [] }

/-- An enrichment API whose first batch fails with HTTP 500 and whose later
batches succeed returning a doc for bibcode A. -/
def apiBatchFailThenA : Nat → BatchResponse :=
  fun i =>
    if i = 0 then { status := 500, docs := [] }
    else { status := 200, docs := [{ bibcode := "A", reference := some ["x"] }] }

/-- An enrichment API whose every batch fails with HTTP 500. -/
def apiBatchAllFail : Nat → BatchResponse := fun _ => { status := 500, docs := [] }

/-- The reference mapping of the spec example: a maps to two references,
b maps to an empty list. -/
def mapAB : RefMap := [("a", ["x", "y"]), ("b", [])]

/-- A record whose bibcode is a. -/
def recBibA : Record := { bibcode := some "a", doi := none, fields := [] }

/-- A record whose bibcode is b. -/
def recBibB : Record := { bibcode := some "b", doi := none, fields := [] }

/-! Lemmas about the batch partition. -/

theorem batchesOf_nil {α : Type} (n : Nat) : batchesOf ([] : List α) n = [] := by
  have h : ((List.length ([] : List α)) + n - 1) / n = 0 := by
    cases n with
    | zero => simp
    | succ m => exact Nat.div_eq_of_lt (by simp)
  unfold batchesOf
  rw [h]
  rfl

theorem batchesOf_cons {α : Type} (n : Nat) (hn : 0 < n) (l : List α) (hl : l ≠ []) :
    batchesOf l n = l.take n :: batchesOf (l.drop n) n := by
  have hL : 1 ≤ l.length := List.length_pos.mpr hl
  have hcount : (l.length + n - 1) / n = (l.length - 1) / n + 1 := by
    have h1 : l.length + n - 1 = (l.length - 1) + n := by omega
    rw [h1, Nat.add_div_right _ hn]
  have hcount2 : ((l.drop n).length + n - 1) / n = (l.length - 1) / n := by
    rw [List.length_drop]
    rcases le_or_lt l.length n with h | h
    · have h1 : l.length - n = 0 := by omega
      rw [h1]
      have h2 : (0 + n - 1) / n = 0 := Nat.div_eq_of_lt (by omega)
      have h3 : (l.length - 1) / n = 0 := Nat.div_eq_of_lt (by omega)
      rw [h2, h3]
    · have h1 : l.length - n + n - 1 = l.length - 1 := by omega
      rw [h1]
  unfold batchesOf
  rw [hcount, hcount2, List.range_succ_eq_map, List.map_cons, List.map_map]
  congr 1
  · simp
  · apply List.map_congr_left
    intro j _
    simp only [Function.comp_apply, Nat.succ_eq_add_one, List.drop_drop]
    congr 2
    ring

theorem batchesOf_flatten {α : Type} (n : Nat) (hn : 0 < n) (l : List α) :
    (batchesOf l n).flatten = l := by
  have key : ∀ (N : Nat) (l : List α), l.length ≤ N → (batchesOf l n).flatten = l := by
    intro N
    induction N with
    | zero =>
      intro l h
      have hl : l = [] := List.length_eq_zero.mp (Nat.le_zero.mp h)
      subst hl; rw [batchesOf_nil]; rfl
    | succ N ih =>
      intro l h
      rcases eq_or_ne l [] with rfl | hl
      · rw [batchesOf_nil]; rfl
      · have hL : 1 ≤ l.length := List.length_pos.mpr hl
        have hlen : (l.drop n).length ≤ N := by
          rw [List.length_drop]; omega
        rw [batchesOf_cons n hn l hl, List.flatten_cons, ih (l.drop n) hlen]
        exact List.take_append_drop n l
  exact key l.length l le_rfl

theorem batchesOf_length_le {α : Type} (l : List α) (n : Nat) :
    ∀ b ∈ batchesOf l n, b.length ≤ n := by
  intro b hb
  rw [batchesOf, List.mem_map] at hb
  obtain ⟨j, _, rfl⟩ := hb
  rw [List.length_take]
  exact min_le_left _ _

theorem mem_of_mem_batchesOf {α : Type} {n : Nat} (hn : 0 < n) {l b : List α}
    (hb : b ∈ batchesOf l n) {x : α} (hx : x ∈ b) : x ∈ l := by
  have h := List.mem_flatten.mpr ⟨b, hb, hx⟩
  rwa [batchesOf_flatten n hn l] at h

/-- Claim C8: for every input sequence of identifiers and every positive
batch size, the enrichment step partitions the identifiers into contiguous
batches, each of size at most the batch size, whose concatenation in
processing order equals the original input sequence. -/
theorem enrich_batches_partition (ids : List String) (n : Nat) (hn : 0 < n) :
    (batchesOf ids n).flatten = ids ∧ ∀ b ∈ batchesOf ids n, b.length ≤ n :=
  ⟨batchesOf_flatten n hn ids, batchesOf_length_le ids n⟩

/-- Witness for C8 at the spec example: five identifiers with batch size 2
give batches whose concatenation is the input and whose sizes are at most 2
(the batches being exactly two pairs and a singleton). -/
theorem enrich_batches_partition_witness :
    (batchesOf ["a", "b", "c", "d", "e"] 2).flatten = ["a", "b", "c", "d", "e"] ∧
      batchesOf ["a", "b", "c", "d", "e"] 2 = [["a", "b"], ["c", "d"], ["e"]] :=
  ⟨(enrich_batches_partition ["a", "b", "c", "d", "e"] 2 (by decide)).1, by decide⟩

/-! Lemmas about the results dictionary. -/

theorem storeEmpty_nil (res : RefMap) : storeEmpty res [] = res := rfl

theorem storeEmpty_cons (res : RefMap) (b : String) (bs : List String) :
    storeEmpty res (b :: bs) = storeEmpty (dinsert res b []) bs := rfl

theorem storeDocs_nil (res : RefMap) : storeDocs res [] = res := rfl

theorem storeDocs_cons (res : RefMap) (d : RefDoc) (ds : List RefDoc) :
    storeDocs res (d :: ds) = storeDocs (dinsert res d.bibcode (d.reference.getD [])) ds := rfl

theorem enrichGo_nil (api : Nat → BatchResponse) (i : Nat) (res : RefMap) :
    enrichGo api i [] res = res := rfl

theorem enrichGo_cons (api : Nat → BatchResponse) (i : Nat) (b : List String)
    (bs : List (List String)) (res : RefMap) :
    enrichGo api i (b :: bs) res = enrichGo api (i + 1) bs (processBatch res b (api i)) := rfl

theorem mkeys_map_update (m : RefMap) (k : String) (v : List String) :
    mkeys (m.map (fun p => if p.1 = k then (k, v) else p)) = mkeys m := by
  induction m with
  | nil => rfl
  | cons p m ih =>
    by_cases h : p.1 = k <;> simp [mkeys, h] <;> simpa [mkeys] using ih

theorem mem_mkeys_dinsert_iff (m : RefMap) (k : String) (v : List String) (a : String) :
    a ∈ mkeys (dinsert m k v) ↔ a = k ∨ a ∈ mkeys m := by
  unfold dinsert
  by_cases h : k ∈ mkeys m
  · rw [if_pos h, mkeys_map_update]
    constructor
    · exact Or.inr
    · rintro (rfl | ha)
      · exact h
      · exact ha
  · rw [if_neg h]
    simp [mkeys, or_comm]

theorem mem_mkeys_storeEmpty (batch : List String) (res : RefMap) (a : String) :
    a ∈ mkeys (storeEmpty res batch) ↔ a ∈ batch ∨ a ∈ mkeys res := by
  induction batch generalizing res with
  | nil => simp [storeEmpty_nil]
  | cons b bs ih =>
    rw [storeEmpty_cons, ih, mem_mkeys_dinsert_iff]
    simp [List.mem_cons]
    tauto

theorem mem_mkeys_storeDocs (docs : List RefDoc) (res : RefMap) (a : String) :
    a ∈ mkeys (storeDocs res docs) ↔ (∃ d ∈ docs, d.bibcode = a) ∨ a ∈ mkeys res := by
  induction docs generalizing res with
  | nil => simp [storeDocs_nil]
  | cons d ds ih =>
    rw [storeDocs_cons, ih, mem_mkeys_dinsert_iff]
    simp only [List.exists_mem_cons_iff]
    constructor
    · rintro (h | rfl | h)
      · exact Or.inl (Or.inr h)
      · exact Or.inl (Or.inl rfl)
      · exact Or.inr h
    · rintro ((rfl | h) | h)
      · exact Or.inr (Or.inl rfl)
      · exact Or.inl h
      · exact Or.inr (Or.inr h)

theorem mem_mkeys_processBatch (res : RefMap) (batch : List String)
    (resp : BatchResponse) (a : String) :
    a ∈ mkeys (processBatch res batch resp) ↔ writesKey resp batch a ∨ a ∈ mkeys res := by
  unfold processBatch writesKey
  by_cases h : resp.status = 200
  · simp only [h, if_true, ne_eq, not_true_eq_false, if_false]
    exact mem_mkeys_storeDocs resp.docs res a
  · simp only [h, if_false, ne_eq, not_false_eq_true, if_true]
    exact mem_mkeys_storeEmpty batch res a

theorem mem_mkeys_enrichGo (api : Nat → BatchResponse) (a : String) :
    ∀ (bs : List (List String)) (i : Nat) (res : RefMap),
      a ∈ mkeys (enrichGo api i bs res) ↔
        (∃ j batch, bs[j]? = some batch ∧ writesKey (api (i + j)) batch a) ∨ a ∈ mkeys res := by
  intro bs
  induction bs with
  | nil =>
    intro i res
    simp [enrichGo_nil]
  | cons b rest ih =>
    intro i res
    rw [enrichGo_cons, ih, mem_mkeys_processBatch]
    constructor
    · rintro (⟨j, batch, hj, hw⟩ | hw | hres)
      · refine Or.inl ⟨j + 1, batch, by simpa using hj, ?_⟩
        have he : i + (j + 1) = i + 1 + j := by omega
        rw [he]; exact hw
      · exact Or.inl ⟨0, b, by simp, by simpa using hw⟩
      · exact Or.inr hres
    · rintro (⟨j, batch, hj, hw⟩ | hres)
      · cases j with
        | zero =>
          rw [List.getElem?_cons_zero] at hj
          have hb : b = batch := by injection hj
          subst hb
          refine Or.inr (Or.inl ?_)
          simpa using hw
        | succ j =>
          rw [List.getElem?_cons_succ] at hj
          refine Or.inl ⟨j, batch, hj, ?_⟩
          have he : i + 1 + j = i + (j + 1) := by omega
          rw [he]; exact hw
      · exact Or.inr (Or.inr hres)

/-- Claim C1 counterexample: the input identifier A is not a key of the
returned mapping when the (successful) batch response contains no docs, so
the key set does not always equal the set of input identifiers. -/
theorem enrich_key_set_counterexample :
    ("A" ∈ (["A"] : List String)) ∧
      "A" ∉ mkeys (get_references_or_citations_batched apiBatchNoDocs ["A"] 1) := by
  decide

/-- Claim C1 (amended): for every positive batch size, the key set of the
mapping returned by get_references_or_citations_batched equals the set of
input identifiers provided every successful batch response contains
exactly the docs for its own batch (each returned bibcode belongs to the
batch and every batch identifier has a returned doc); a failed batch
always contributes exactly its own identifiers. -/
theorem enrich_key_set_eq_input (api : Nat → BatchResponse) (ids : List String)
    (n : Nat) (hn : 0 < n)
    (hexact : ∀ i, (hi : i < (batchesOf ids n).length) → (api i).status = 200 →
      (∀ d ∈ (api i).docs, d.bibcode ∈ (batchesOf ids n).get ⟨i, hi⟩) ∧
        (∀ b ∈ (batchesOf ids n).get ⟨i, hi⟩, ∃ d ∈ (api i).docs, d.bibcode = b))
    (a : String) :
    a ∈ mkeys (get_references_or_citations_batched api ids n) ↔ a ∈ ids := by
  unfold get_references_or_citations_batched
  rw [mem_mkeys_enrichGo]
  simp only [zero_add, mkeys, List.map_nil, List.not_mem_nil, or_false]
  constructor
  · rintro ⟨j, batch, hj, hw⟩
    obtain ⟨hlt, hget⟩ := List.getElem?_eq_some_iff.mp hj
    have hbmem : batch ∈ batchesOf ids n := by
      rw [← hget]; exact List.getElem_mem hlt
    unfold writesKey at hw
    by_cases hst : (api j).status = 200
    · rw [if_pos hst] at hw
      obtain ⟨d, hd, rfl⟩ := hw
      have hmem : d.bibcode ∈ (batchesOf ids n).get ⟨j, hlt⟩ :=
        (hexact j hlt hst).1 d hd
      rw [List.get_eq_getElem, hget] at hmem
      exact mem_of_mem_batchesOf hn hbmem hmem
    · rw [if_neg hst] at hw
      exact mem_of_mem_batchesOf hn hbmem hw
  · intro ha
    have hfl : a ∈ (batchesOf ids n).flatten := by
      rw [batchesOf_flatten n hn]; exact ha
    obtain ⟨batch, hb, hab⟩ := List.mem_flatten.mp hfl
    obtain ⟨j, hj⟩ := List.mem_iff_getElem?.mp hb
    obtain ⟨hlt, hget⟩ := List.getElem?_eq_some_iff.mp hj
    refine ⟨j, batch, hj, ?_⟩
    unfold writesKey
    by_cases hst : (api j).status = 200
    · rw [if_pos hst]
      refine (hexact j hlt hst).2 a ?_
      rw [List.get_eq_getElem, hget]; exact hab
    · rw [if_neg hst]
      exact hab

/-- Witness for C1 (amended): identifiers A, B, C with batch size 2; the
first batch succeeds with exactly the docs for A and B, the second batch
fails; identifier C is a key of the returned mapping. -/
theorem enrich_key_set_eq_input_witness :
    "C" ∈ mkeys (get_references_or_citations_batched apiBatchExact ["A", "B", "C"] 2) :=
  (enrich_key_set_eq_input apiBatchExact ["A", "B", "C"] 2 (by decide) (by decide) "C").mpr
    (by decide)

/-! Claims about reference attachment. -/

theorem storeDocs_map_norm (docs : List RefDoc) (res : RefMap) :
    storeDocs res docs =
      storeDocs res
        (docs.map (fun d => { bibcode := d.bibcode, reference := some (d.reference.getD []) })) := by
  induction docs generalizing res with
  | nil => rfl
  | cons d ds ih =>
    rw [List.map_cons, storeDocs_cons, storeDocs_cons]
    exact ih _

/-- Claim C10: a doc returned by a successful enrichment batch that lacks
the reference field is stored with an empty sequence, so the result of the
batch is unchanged when every missing reference field is replaced by an
explicitly empty list: downstream consumers cannot distinguish the two. -/
theorem missing_reference_stored_as_empty (res : RefMap) (batch : List String)
    (st : Nat) (docs : List RefDoc) :
    processBatch res batch { status := st, docs := docs } =
        processBatch res batch
          { status := st,
            docs := docs.map
              (fun d => { bibcode := d.bibcode, reference := some (d.reference.getD []) }) } ∧
      ∀ bb : String,
        mlookup
          (processBatch [] batch { status := 200, docs := [{ bibcode := bb, reference := none }] })
          bb = some [] := by
  constructor
  · unfold processBatch
    by_cases h : st = 200 <;>
      simp only [h, ne_eq, not_true_eq_false, if_false, not_false_eq_true, if_true]
    exact storeDocs_map_norm docs res
  · intro bb
    simp [processBatch, storeDocs_cons, storeDocs_nil, dinsert, mkeys, mlookup]

/-- Claim C7: the references field attached to a record is the comma-joined
reference list of its bibcode when the mapping holds a non-empty list for
it, and the placeholder None when the bibcode is absent from the mapping or
maps to an empty list. -/
theorem attach_references_field (m : RefMap) (r : Record) (b : String)
    (hb : r.bibcode = some b) :
    (mlookup m b = none → (attachRecord m r).references = "None") ∧
      (mlookup m b = some [] → (attachRecord m r).references = "None") ∧
      ∀ x xs, mlookup m b = some (x :: xs) →
        (attachRecord m r).references = String.intercalate ", " (x :: xs) := by
  refine ⟨?_, ?_, ?_⟩
  · intro h; simp [attachRecord, hb, refString, h]
  · intro h; simp [attachRecord, hb, refString, h]
  · intro x xs h; simp [attachRecord, hb, refString, h]

/-- Witness for C7 at the spec example: with mapping a to x and y and b to
the empty list, record a gets the references string comma-joining x and y,
and record b gets None. -/
theorem attach_references_field_witness :
    (attachRecord mapAB recBibA).references = "x, y" ∧
      (attachRecord mapAB recBibB).references = "None" := by
  constructor
  · have h := (attach_references_field mapAB recBibA "a" rfl).2.2 "x" ["y"] (by decide)
    exact h.trans (by decide)
  · exact (attach_references_field mapAB recBibB "b" rfl).2.1 (by decide)

/-- Claim C9: add_references_to_dataframe deletes no record (the output has
the same length as the input) and appends exactly one references field:
bibcode, doi and all other bibliographic fields of every record are carried
verbatim into the output. -/
theorem attach_references_frame (api : Nat → BatchResponse) (df : List Record)
    (batch_size : Nat) :
    (add_references_to_dataframe api df batch_size).length = df.length ∧
      ∀ i : Nat,
        ((add_references_to_dataframe api df batch_size)[i]?).map
            (fun r => (r.bibcode, r.doi, r.fields)) =
          (df[i]?).map (fun r => (r.bibcode, r.doi, r.fields)) := by
  unfold add_references_to_dataframe
  constructor
  · exact List.length_map df _
  · intro i
    rw [List.getElem?_map]
    cases df[i]? with
    | none => rfl
    | some r => rfl

/-! Lookup lemmas for the results dictionary. -/

theorem mkeys_cons (p : String × List String) (m : RefMap) :
    mkeys (p :: m) = p.1 :: mkeys m := rfl

theorem mlookup_map_update_self (m : RefMap) (k : String) (v : List String)
    (h : k ∈ mkeys m) :
    mlookup (m.map (fun p => if p.1 = k then (k, v) else p)) k = some v := by
  induction m with
  | nil => simp [mkeys] at h
  | cons p m ih =>
    obtain ⟨k1, v1⟩ := p
    simp only [List.map_cons]
    by_cases h1 : k1 = k
    · rw [if_pos h1]
      simp [mlookup]
    · rw [if_neg h1]
      have h2 : k ∈ mkeys m := by
        rcases List.mem_cons.mp (by rwa [mkeys_cons] at h) with h3 | h3
        · exact absurd h3.symm h1
        · exact h3
      simp only [mlookup]
      rw [if_neg h1]
      exact ih h2

theorem mlookup_map_update_ne (m : RefMap) (k : String) (v : List String)
    (a : String) (hak : a ≠ k) :
    mlookup (m.map (fun p => if p.1 = k then (k, v) else p)) a = mlookup m a := by
  induction m with
  | nil => rfl
  | cons p m ih =>
    obtain ⟨k1, v1⟩ := p
    simp only [List.map_cons]
    by_cases h1 : k1 = k
    · rw [if_pos h1]
      simp only [mlookup]
      rw [if_neg (fun he => hak he.symm), if_neg (by rw [h1]; exact fun he => hak he.symm)]
      exact ih
    · rw [if_neg h1]
      simp only [mlookup]
      by_cases h2 : k1 = a
      · rw [if_pos h2, if_pos h2]
      · rw [if_neg h2, if_neg h2]
        exact ih

theorem mlookup_append_single_self (m : RefMap) (k : String) (v : List String)
    (h : k ∉ mkeys m) : mlookup (m ++ [(k, v)]) k = some v := by
  induction m with
  | nil => simp [mlookup]
  | cons p m ih =>
    obtain ⟨k1, v1⟩ := p
    have h1 : ¬ (k1 = k) := by
      intro he
      exact h (by rw [mkeys_cons, he]; exact List.mem_cons_self k (mkeys m))
    have h2 : k ∉ mkeys m := by
      intro hm
      exact h (by rw [mkeys_cons]; exact List.mem_cons_of_mem k1 hm)
    simp only [List.cons_append, mlookup]
    rw [if_neg h1]
    exact ih h2

theorem mlookup_append_single_ne (m : RefMap) (k : String) (v : List String)
    (a : String) (hak : a ≠ k) : mlookup (m ++ [(k, v)]) a = mlookup m a := by
  induction m with
  | nil =>
    show mlookup [(k, v)] a = mlookup [] a
    simp only [mlookup]
    rw [if_neg (fun he => hak he.symm)]
  | cons p m ih =>
    obtain ⟨k1, v1⟩ := p
    simp only [List.cons_append, mlookup]
    by_cases h1 : k1 = a
    · rw [if_pos h1, if_pos h1]
    · rw [if_neg h1, if_neg h1]
      exact ih

theorem mlookup_dinsert_self (m : RefMap) (k : String) (v : List String) :
    mlookup (dinsert m k v) k = some v := by
  unfold dinsert
  by_cases h : k ∈ mkeys m
  · rw [if_pos h]; exact mlookup_map_update_self m k v h
  · rw [if_neg h]; exact mlookup_append_single_self m k v h

theorem mlookup_dinsert_ne (m : RefMap) (k : String) (v : List String)
    (a : String) (hak : a ≠ k) : mlookup (dinsert m k v) a = mlookup m a := by
  unfold dinsert
  by_cases h : k ∈ mkeys m
  · rw [if_pos h]; exact mlookup_map_update_ne m k v a hak
  · rw [if_neg h]; exact mlookup_append_single_ne m k v a hak

theorem mlookup_storeEmpty_of_mem : ∀ (batch : List String) (res : RefMap) (k : String),
    (k ∈ batch ∨ mlookup res k = some []) → mlookup (storeEmpty res batch) k = some [] := by
  intro batch
  induction batch with
  | nil =>
    intro res k h
    rcases h with h | h
    · simp at h
    · simpa [storeEmpty_nil] using h
  | cons b bs ih =>
    intro res k h
    rw [storeEmpty_cons]
    by_cases hk : k ∈ bs
    · exact ih _ k (Or.inl hk)
    · apply ih _ k
      right
      by_cases hbk : b = k
      · subst hbk; exact mlookup_dinsert_self res b []
      · rw [mlookup_dinsert_ne res b [] k (fun he => hbk he.symm)]
        rcases h with h | h
        · rcases List.mem_cons.mp h with h2 | h2
          · exact absurd h2.symm hbk
          · exact absurd h2 hk
        · exact h

theorem mlookup_storeEmpty_of_not_mem : ∀ (batch : List String) (res : RefMap) (k : String),
    k ∉ batch → mlookup (storeEmpty res batch) k = mlookup res k := by
  intro batch
  induction batch with
  | nil => intro res k _; rfl
  | cons b bs ih =>
    intro res k h
    rw [storeEmpty_cons, ih _ k (fun hm => h (List.mem_cons_of_mem b hm)),
      mlookup_dinsert_ne res b [] k (fun he => h (by rw [he]; exact List.mem_cons_self b bs))]

theorem mlookup_storeDocs_of_not_written : ∀ (docs : List RefDoc) (res : RefMap) (k : String),
    (∀ d ∈ docs, d.bibcode ≠ k) → mlookup (storeDocs res docs) k = mlookup res k := by
  intro docs
  induction docs with
  | nil => intro res k _; rfl
  | cons d ds ih =>
    intro res k h
    rw [storeDocs_cons, ih _ k (fun x hx => h x (List.mem_cons_of_mem d hx)),
      mlookup_dinsert_ne _ _ _ k (fun he => h d (List.mem_cons_self d ds) he.symm)]

theorem mlookup_processBatch_of_not_written (res : RefMap) (batch : List String)
    (resp : BatchResponse) (k : String) (h : ¬ writesKey resp batch k) :
    mlookup (processBatch res batch resp) k = mlookup res k := by
  unfold processBatch
  unfold writesKey at h
  by_cases hst : resp.status = 200
  · rw [if_pos hst] at h
    simp only [hst, ne_eq, not_true_eq_false, if_false]
    apply mlookup_storeDocs_of_not_written
    intro d hd he
    exact h ⟨d, hd, he⟩
  · rw [if_neg hst] at h
    simp only [ne_eq, hst, not_false_eq_true, if_true]
    exact mlookup_storeEmpty_of_not_mem batch res k h

theorem mlookup_enrichGo_of_not_written (api : Nat → BatchResponse) (k : String) :
    ∀ (bs : List (List String)) (i : Nat) (res : RefMap),
      (∀ j bj, bs[j]? = some bj → ¬ writesKey (api (i + j)) bj k) →
      mlookup (enrichGo api i bs res) k = mlookup res k := by
  intro bs
  induction bs with
  | nil => intro i res _; rfl
  | cons b rest ih =>
    intro i res h
    rw [enrichGo_cons]
    have hrest : ∀ j bj, rest[j]? = some bj → ¬ writesKey (api (i + 1 + j)) bj k := by
      intro j bj hj
      have hh := h (j + 1) bj (by simpa using hj)
      simpa [show i + (j + 1) = i + 1 + j by omega] using hh
    rw [ih (i + 1) _ hrest]
    apply mlookup_processBatch_of_not_written
    have hh := h 0 b (by simp)
    simpa using hh

theorem mlookup_enrichGo_failed (api : Nat → BatchResponse) (k : String) :
    ∀ (bs : List (List String)) (i0 : Nat) (res : RefMap) (i : Nat) (batch : List String),
      bs[i]? = some batch → (api (i0 + i)).status ≠ 200 → k ∈ batch →
      (∀ j bj, i < j → bs[j]? = some bj → ¬ writesKey (api (i0 + j)) bj k) →
      mlookup (enrichGo api i0 bs res) k = some [] := by
  intro bs
  induction bs with
  | nil =>
    intro i0 res i batch h
    simp at h
  | cons b rest ih =>
    intro i0 res i batch hb hfail hk hlater
    cases i with
    | zero =>
      rw [List.getElem?_cons_zero] at hb
      have hbb : b = batch := by injection hb
      subst hbb
      rw [enrichGo_cons]
      have hrest : ∀ j bj, rest[j]? = some bj → ¬ writesKey (api (i0 + 1 + j)) bj k := by
        intro j bj hj
        have hh := hlater (j + 1) bj (by omega) (by simpa using hj)
        simpa [show i0 + (j + 1) = i0 + 1 + j by omega] using hh
      rw [mlookup_enrichGo_of_not_written api k rest (i0 + 1) _ hrest]
      unfold processBatch
      rw [if_pos (by simpa using hfail)]
      exact mlookup_storeEmpty_of_mem b res k (Or.inl hk)
    | succ i =>
      rw [List.getElem?_cons_succ] at hb
      rw [enrichGo_cons]
      apply ih (i0 + 1) _ i batch hb
      · simpa [show i0 + 1 + i = i0 + (i + 1) by omega] using hfail
      · exact hk
      · intro j bj hij hbj
        have hh := hlater (j + 1) bj (by omega) (by simpa using hbj)
        simpa [show i0 + (j + 1) = i0 + 1 + j by omega] using hh

/-- Claim C6 counterexample: with duplicate identifiers and batch size 1,
the identifier A belongs to the first batch, whose request fails, yet the
returned mapping does not record A with an empty sequence: a later batch
containing the duplicate overwrites the entry (last write wins). -/
theorem enrich_failed_batch_counterexample :
    (batchesOf ["A", "A"] 1)[0]? = some ["A"] ∧
      (apiBatchFailThenA 0).status ≠ 200 ∧
      mlookup (get_references_or_citations_batched apiBatchFailThenA ["A", "A"] 1) "A"
          = some ["x"] ∧
      mlookup (get_references_or_citations_batched apiBatchFailThenA ["A", "A"] 1) "A"
          ≠ some [] := by
  decide

/-- Claim C6 (amended): when an enrichment batch request returns a
non-success HTTP status, every identifier of that batch is recorded with an
empty result sequence, no exception is raised and the remaining batches are
still processed; the identifier still maps to the empty sequence in the
returned mapping provided no later batch writes the same identifier again
(with duplicate identifiers the last write wins). -/
theorem enrich_failed_batch_empty (api : Nat → BatchResponse) (ids : List String)
    (n i : Nat) (batch : List String) (k : String)
    (hb : (batchesOf ids n)[i]? = some batch)
    (hfail : (api i).status ≠ 200)
    (hk : k ∈ batch)
    (hlater : ∀ j, (hj : j < (batchesOf ids n).length) → i < j →
      ¬ writesKey (api j) ((batchesOf ids n).get ⟨j, hj⟩) k) :
    mlookup (get_references_or_citations_batched api ids n) k = some [] := by
  unfold get_references_or_citations_batched
  apply mlookup_enrichGo_failed api k (batchesOf ids n) 0 [] i batch hb
  · simpa using hfail
  · exact hk
  · intro j bj hij hbj
    obtain ⟨hlt, hget⟩ := List.getElem?_eq_some_iff.mp hbj
    have hh := hlater j hlt hij
    rw [List.get_eq_getElem, hget] at hh
    simpa using hh

/-- Witness for C6 (amended): both identifiers are in one batch whose
request fails with HTTP 500 and there is no later batch; identifier A is
recorded with the empty sequence. -/
theorem enrich_failed_batch_empty_witness :
    mlookup (get_references_or_citations_batched apiBatchAllFail ["A", "B"] 2) "A" = some [] :=
  enrich_failed_batch_empty apiBatchAllFail ["A", "B"] 2 0 ["A", "B"] "A"
    (by decide) (by decide) (by decide) (by decide)

/-! Lemmas about the pagination loop. -/

theorem queryYear_succ (api : Nat → Nat → PageResponse) (year fuel start : Nat) :
    queryYear api year (fuel + 1) start =
      if (api year start).status ≠ 200 then ([], [start])
      else if (api year start).docs = [] then ([], [start])
      else
        ((api year start).docs ++ (queryYear api year fuel (start + 2000)).1,
          start :: (queryYear api year fuel (start + 2000)).2) := rfl

theorem queryYear_offsets (api : Nat → Nat → PageResponse) (y : Nat) :
    ∀ (k s fuel : Nat), k < fuel →
      (∀ j < k, (api y (s + 2000 * j)).status = 200 ∧ (api y (s + 2000 * j)).docs ≠ []) →
      (api y (s + 2000 * k)).docs = [] →
      (queryYear api y fuel s).2 = (List.range (k + 1)).map (fun j => s + 2000 * j) := by
  intro k
  induction k with
  | zero =>
    intro s fuel hf _ hempty
    obtain ⟨f, rfl⟩ : ∃ f, fuel = f + 1 := ⟨fuel - 1, by omega⟩
    rw [queryYear_succ]
    have he : (api y s).docs = [] := by simpa using hempty
    by_cases hst : (api y s).status = 200
    · rw [if_neg (by simp [hst]), if_pos he]
      simp [List.range_succ]
    · rw [if_pos hst]
      simp [List.range_succ]
  | succ k ih =>
    intro s fuel hf hall hempty
    obtain ⟨f, rfl⟩ : ∃ f, fuel = f + 1 := ⟨fuel - 1, by omega⟩
    have h0 := hall 0 (by omega)
    have hst : (api y s).status = 200 := by simpa using h0.1
    have hne : (api y s).docs ≠ [] := by simpa using h0.2
    rw [queryYear_succ, if_neg (by simp [hst]), if_neg hne]
    have hall2 : ∀ j < k,
        (api y (s + 2000 + 2000 * j)).status = 200 ∧ (api y (s + 2000 + 2000 * j)).docs ≠ [] := by
      intro j hj
      have hh := hall (j + 1) (by omega)
      simpa [show s + 2000 * (j + 1) = s + 2000 + 2000 * j by ring] using hh
    have hemp2 : (api y (s + 2000 + 2000 * k)).docs = [] := by
      simpa [show s + 2000 * (k + 1) = s + 2000 + 2000 * k by ring] using hempty
    have hrec := ih (s + 2000) f (by omega) hall2 hemp2
    show s :: (queryYear api y f (s + 2000)).2 =
      List.map (fun j => s + 2000 * j) (List.range (k + 1 + 1))
    rw [List.range_succ_eq_map (k + 1), List.map_cons, List.map_map, hrec]
    refine congrArg₂ List.cons (by simp) ?_
    apply List.map_congr_left
    intro j _
    show s + 2000 + 2000 * j = s + 2000 * (j + 1)
    ring

theorem queryYear_docs_fail (api : Nat → Nat → PageResponse) (y : Nat) :
    ∀ (k s fuel : Nat), k < fuel →
      (∀ j < k, (api y (s + 2000 * j)).status = 200 ∧ (api y (s + 2000 * j)).docs ≠ []) →
      (api y (s + 2000 * k)).status ≠ 200 →
      (queryYear api y fuel s).1 =
        ((List.range k).map (fun j => (api y (s + 2000 * j)).docs)).flatten := by
  intro k
  induction k with
  | zero =>
    intro s fuel hf _ hfail
    obtain ⟨f, rfl⟩ : ∃ f, fuel = f + 1 := ⟨fuel - 1, by omega⟩
    rw [queryYear_succ, if_pos (by simpa using hfail)]
    simp
  | succ k ih =>
    intro s fuel hf hall hfail
    obtain ⟨f, rfl⟩ : ∃ f, fuel = f + 1 := ⟨fuel - 1, by omega⟩
    have h0 := hall 0 (by omega)
    have hst : (api y s).status = 200 := by simpa using h0.1
    have hne : (api y s).docs ≠ [] := by simpa using h0.2
    rw [queryYear_succ, if_neg (by simp [hst]), if_neg hne]
    have hall2 : ∀ j < k,
        (api y (s + 2000 + 2000 * j)).status = 200 ∧ (api y (s + 2000 + 2000 * j)).docs ≠ [] := by
      intro j hj
      have hh := hall (j + 1) (by omega)
      simpa [show s + 2000 * (j + 1) = s + 2000 + 2000 * j by ring] using hh
    have hfail2 : (api y (s + 2000 + 2000 * k)).status ≠ 200 := by
      simpa [show s + 2000 * (k + 1) = s + 2000 + 2000 * k by ring] using hfail
    have hrec := ih (s + 2000) f (by omega) hall2 hfail2
    show (api y s).docs ++ (queryYear api y f (s + 2000)).1 =
      ((List.range (k + 1)).map (fun j => (api y (s + 2000 * j)).docs)).flatten
    rw [List.range_succ_eq_map k, List.map_cons, List.map_map, List.flatten_cons, hrec]
    refine congrArg₂ (fun a b => a ++ b) (by simp) ?_
    congr 1
    apply List.map_congr_left
    intro j _
    show (api y (s + 2000 + 2000 * j)).docs = (api y (s + 2000 * (j + 1))).docs
    rw [show s + 2000 * (j + 1) = s + 2000 + 2000 * j by ring]

/-- Claim C3: within a year, pagination stops at the first page whose
response contains zero documents: exactly the offsets 0, 2000, ...,
2000 k are requested (each page advancing the offset by the fixed page
size 2000) and no further page request is issued for that year. -/
theorem pagination_stops_at_empty_page (api : Nat → Nat → PageResponse)
    (y k fuel : Nat) (hfuel : k < fuel)
    (hbefore : ∀ j < k, (api y (2000 * j)).status = 200 ∧ (api y (2000 * j)).docs ≠ [])
    (hempty : (api y (2000 * k)).docs = []) :
    (queryYear api y fuel 0).2 = (List.range (k + 1)).map (fun j => 2000 * j) := by
  have h := queryYear_offsets api y k 0 fuel hfuel (by simpa using hbefore)
    (by simpa using hempty)
  simpa using h

/-- Witness for C3: one page with a doc at offset 0, an empty page at
offset 2000; the requested offsets are exactly 0 and 2000. -/
theorem pagination_stops_at_empty_page_witness :
    (queryYear apiOnePage 2015 3 0).2 = [0, 2000] := by
  have h := pagination_stops_at_empty_page apiOnePage 2015 1 3 (by decide) (by decide) (by decide)
  exact h.trans (by decide)

/-- Claim C2 (code bug): when every page response of every year in the
range contains zero documents, query_articles does not return an empty
sequence without exception: nothing is accumulated, `pd.DataFrame([])` has
no doi column, and `df[df['doi'].notnull()]` raises `KeyError('doi')`,
modeled here as `Except.error`. -/
theorem empty_search_raises_keyerror :
    query_articles apiPagesEmpty 5 2000 2001 = Except.error "KeyError: doi" := rfl

/-- Claim C4: every record in a sequence successfully returned by
query_articles has a non-null DOI field. -/
theorem search_results_have_doi (api : Nat → Nat → PageResponse)
    (fuel startYear endYear : Nat) (rs : List Record)
    (h : query_articles api fuel startYear endYear = Except.ok rs) :
    ∀ r ∈ rs, r.doi.isSome = true := by
  unfold query_articles at h
  by_cases hc : (collectAll api fuel startYear endYear).any hasDoi = true
  · rw [if_pos hc] at h
    injection h with h
    subst h
    intro r hr
    exact (List.mem_filter.mp hr).2
  · rw [if_neg hc] at h
    cases h

/-- Witness for C4: a search returning one record with a DOI; that record
has a non-null DOI. -/
theorem search_results_have_doi_witness : recA.doi.isSome = true :=
  search_results_have_doi apiOnePage 3 2015 2015 [recA] (by rfl) recA (by decide)

/-- Claim C5 counterexample: a non-success page status does not always
leave the run exception-free with the accumulated documents kept: with a
single year whose very first page request fails, nothing is accumulated and
the DOI filter raises KeyError (modeled as Except.error) instead of
returning a result. -/
theorem page_failure_counterexample :
    (apiPagesFail 2000 0).status ≠ 200 ∧
      query_articles apiPagesFail 5 2000 2000 = Except.error "KeyError: doi" :=
  ⟨by decide, rfl⟩

/-- Claim C5 (amended): a non-success HTTP status for a page request stops
pagination for that year only: the failing year contributes exactly the
documents of its pages before the failure, every other year of the range is
processed normally, and the documents accumulated before the failure are
kept in the accumulated list; the call then returns, without exception, the
accumulated documents with a non-null DOI, provided at least one
accumulated document carries a DOI field (otherwise the DataFrame lacks the
doi column and KeyError is raised, as the counterexample shows). -/
theorem page_failure_stops_year_only (api : Nat → Nat → PageResponse)
    (fuel startYear endYear y k : Nat)
    (hy1 : startYear ≤ y) (hy2 : y ≤ endYear) (hfuel : k < fuel)
    (hbefore : ∀ j < k, (api y (2000 * j)).status = 200 ∧ (api y (2000 * j)).docs ≠ [])
    (hfail : (api y (2000 * k)).status ≠ 200) :
    collectAll api fuel startYear endYear =
        ((List.range (y - startYear)).map
            (fun i => (queryYear api (startYear + i) fuel 0).1)).flatten ++
          ((List.range k).map (fun j => (api y (2000 * j)).docs)).flatten ++
          ((List.range (endYear - y)).map
            (fun i => (queryYear api (y + 1 + i) fuel 0).1)).flatten ∧
      ((collectAll api fuel startYear endYear).any hasDoi = true →
        query_articles api fuel startYear endYear =
          Except.ok ((collectAll api fuel startYear endYear).filter hasDoi)) := by
  constructor
  · unfold collectAll
    have hmid : (queryYear api y fuel 0).1 =
        ((List.range k).map (fun j => (api y (2000 * j)).docs)).flatten := by
      have h := queryYear_docs_fail api y k 0 fuel hfuel (by simpa using hbefore)
        (by simpa using hfail)
      simpa using h
    have hsplit : endYear + 1 - startYear = (y - startYear) + 1 + (endYear - y) := by omega
    rw [hsplit, List.range_add, List.range_succ, List.map_append, List.map_append,
      List.flatten_append, List.flatten_append]
    refine congrArg₂ (fun a b => a ++ b) (congrArg₂ (fun a b => a ++ b) rfl ?_) ?_
    · -- the failing year contributes its pre-failure pages
      simp only [List.map_cons, List.map_nil, List.flatten_cons, List.flatten_nil,
        List.append_nil]
      rw [show startYear + (y - startYear) = y by omega]
      exact hmid
    · -- years after the failing year are processed normally
      rw [List.map_map]
      congr 1
      apply List.map_congr_left
      intro i _
      show (queryYear api (startYear + (y - startYear + 1 + i)) fuel 0).1 =
        (queryYear api (y + 1 + i) fuel 0).1
      rw [show startYear + (y - startYear + 1 + i) = y + 1 + i by omega]
  · intro h
    unfold query_articles
    rw [if_pos h]

/-- Witness for C5 (amended): two years where year 2000 delivers one doc
and then fails with HTTP 500 while year 2001 completes normally; both
accumulated docs are kept and returned. -/
theorem page_failure_stops_year_only_witness :
    collectAll apiYearFail 3 2000 2001 = [recA, recB] ∧
      query_articles apiYearFail 3 2000 2001 = Except.ok [recA, recB] := by
  have h := page_failure_stops_year_only apiYearFail 3 2000 2001 2000 1 (by decide) (by decide)
    (by decide) (by decide) (by decide)
  refine ⟨h.1.trans (by decide), ?_⟩
  have h2 := h.2 (by decide)
  exact h2.trans (congrArg Except.ok (by decide))

end ADSQuery
